import Mathlib

/-!
# Verification of `logstack`'s journald sink (`journal.go`)

A shallow embedding of the `JournalWriter` component: the field encoder,
the one-time socket-session initialization, the direct datagram send, the
oversized-payload fallback, and `Close`.

Strings and byte buffers are modelled as `List Nat` (one `Nat` per byte);
Go's `len` on a string is its byte length, which coincides with
`List.length` here.  External effects (address resolution, socket bind,
JSON decoding, socket sends, temp-file operations) are modelled as an
environment record of their outcomes, and `writeEntry` is a pure function
of the writer state, the entry and that environment, mirroring the control
flow of `WriteEntry` statement by statement.
-/

namespace Logstack

/-- Byte value of the newline character. -/
def nlByte : Nat := 10

/-- Byte value of the `=` character. -/
def eqByte : Nat := 61

/-- Bytes of an ASCII string literal (used for the fixed field names and
test inputs; `Char.toNat` is the byte value for ASCII characters). -/
def str (s : String) : List Nat :=
  s.data.map Char.toNat

/-- The 8 little-endian bytes of `uint64(n)` as written by
`binary.Write(w, binary.LittleEndian, uint64(len(value)))`. -/
def le64 (n : Nat) : List Nat :=
  [n % 256, n / 256 % 256, n / 256 ^ 2 % 256, n / 256 ^ 3 % 256,
   n / 256 ^ 4 % 256, n / 256 ^ 5 % 256, n / 256 ^ 6 % 256, n / 256 ^ 7 % 256]

/-- Value of a little-endian byte sequence, used to state that the length
prefix written by the encoder denotes exactly the value's byte length. -/
def leDecode (bs : List Nat) : Nat :=
  bs.foldr (fun b acc => b + 256 * acc) 0

/-- Modelled from the spec: the severity `Level` enumeration.  The level
constants (`TraceLevel`, ..., `PanicLevel`) are declared elsewhere in the
repository; the spec fixes the enumerated levels and says any other value
is an unrecognized level, which `unknownLevel` represents. -/
inductive Level where
  | trace
  | debug
  | info
  | warn
  | error
  | fatal
  | panicLevel
  | unknownLevel (n : Nat)
deriving DecidableEq

/-- Modelled from the spec: the decoded record `dot` produced by
`jsonToDot` (declared elsewhere in the repository) — a severity level, a
message, and the ordered key/value pairs. -/
structure Dot where
  level : Level
  message : List Nat
  keyValue : List (List Nat × List Nat)
deriving DecidableEq

/-- The `print` closure of `WriteEntry`: if `value` contains a newline,
emit `name`, a newline, the 8-byte little-endian `uint64` byte length of
`value`, `value`, and a newline; otherwise emit `name=value` and a
newline. -/
def printField (name value : List Nat) : List Nat :=
  if value.contains nlByte then
    name ++ [nlByte] ++ le64 value.length ++ value ++ [nlByte]
  else
    name ++ [eqByte] ++ value ++ [nlByte]

/-- The `switch t.Level` mapping of `WriteEntry`, producing the
`PRIORITY` value as the bytes of a one-digit string. -/
def priorityOf : Level → List Nat
  | .trace => str "7"
  | .debug => str "7"
  | .info => str "6"
  | .warn => str "4"
  | .error => str "3"
  | .fatal => str "2"
  | .panicLevel => str "0"
  | .unknownLevel _ => str "5"

/-- Byte-wise ASCII uppercasing, modelling `strings.ToUpper` on the ASCII
key names the encoder receives. -/
def toUpperByte (b : Nat) : Nat :=
  if 97 ≤ b ∧ b ≤ 122 then b - 32 else b

/-- `strings.ToUpper` applied to a key name. -/
def toUpperStr (l : List Nat) : List Nat :=
  l.map toUpperByte

/-- The encoding section of `WriteEntry`: the sequential appends into the
pooled buffer `b` — `PRIORITY`, `MESSAGE`, one field per key/value pair
(name uppercased), then `JSON` holding the raw serialized entry
(`b2s(e.buf)`). -/
def encodeEntry (t : Dot) (raw : List Nat) : List Nat :=
  let b : List Nat := []
  let b := b ++ printField (str "PRIORITY") (priorityOf t.level)
  let b := b ++ printField (str "MESSAGE") t.message
  let b := t.keyValue.foldl (fun b kv => b ++ printField (toUpperStr kv.1) kv.2) b
  b ++ printField (str "JSON") raw

/-- Error numbers, modelling the `syscall.Errno` values the code compares
against (`EMSGSIZE`, `ENOBUFS`, and `EINVAL` returned by the `net`
package on a nil connection) plus arbitrary other values. -/
inductive Errno where
  | EMSGSIZE
  | ENOBUFS
  | EINVAL
  | other (n : Nat)
deriving DecidableEq

/-- The shape of a Go `error` value as far as `WriteEntry` inspects it:
`opError` models a `*net.OpError` wrapping an inner error, `syscallError`
a `*os.SyscallError` wrapping an errno, `errno` a bare `syscall.Errno`
used directly as an error, `netClosed` the `net` package's
use-of-closed-connection error, and `other` any other error value. -/
inductive GoErr where
  | opError (inner : GoErr)
  | syscallError (e : Errno)
  | errno (e : Errno)
  | netClosed
  | other (n : Nat)
deriving DecidableEq

/-- The size-limit classification of `WriteEntry`: the error is a
`*net.OpError` whose `Err` is a `*os.SyscallError` whose `Err` is
`syscall.EMSGSIZE` or `syscall.ENOBUFS`; every other shape falls through
the early returns. -/
def isSizeLimit : GoErr → Bool
  | .opError (.syscallError .EMSGSIZE) => true
  | .opError (.syscallError .ENOBUFS) => true
  | _ => false

/-- The state of a `*net.UnixConn`: whether it has been closed. -/
structure ConnState where
  closed : Bool
deriving DecidableEq

/-- The mutable fields of `JournalWriter`: the configured socket path,
the `sync.Once` guard (whether its function has run), and the `addr` and
`conn` fields it fills in.  `conn = none` models a nil `*net.UnixConn`. -/
structure WriterState where
  journalSocket : List Nat
  onceDone : Bool
  addr : Option (List Nat)
  conn : Option ConnState
deriving DecidableEq

/-- An `Entry`: the raw serialized log record bytes (`e.buf`). -/
structure Entry where
  buf : List Nat
deriving DecidableEq

/-- Outcomes of the external effects one call to `WriteEntry` performs,
supplied as an oracle: `none` means the step succeeds, `some e` that it
fails with error `e`.  `decodeResult` is the outcome of `jsonToDot`
(declared elsewhere in the repository, modelled at its interface);
`fileWriteShortN` is the byte count `os.File.Write` reports when it
fails. -/
structure Env where
  resolveErr : Option GoErr
  listenErr : Option GoErr
  decodeResult : Except GoErr Dot
  sendErr : Option GoErr
  tempFileErr : Option GoErr
  unlinkErr : Option GoErr
  fileWriteErr : Option GoErr
  fileWriteShortN : Nat
  ancillaryErr : Option GoErr

/-- The default journald socket path used when `JournalSocket` is empty. -/
def defaultSocket : List Nat := str "/run/systemd/journal/socket"

/-- The `w.once.Do` block of `WriteEntry`: on the first call, set `addr`
(configured path, or the well-known default when empty), resolve the
autobind address, then bind the unixgram connection; a failure of either
step leaves `conn` nil and surfaces in this call's `err`.  On every later
call the block does nothing and contributes no error. -/
def runOnce (w : WriterState) (env : Env) : WriterState × Option GoErr :=
  if w.onceDone then (w, none)
  else
    let a := if w.journalSocket = [] then defaultSocket else w.journalSocket
    let w := { w with onceDone := true, addr := some a }
    match env.resolveErr with
    | some e => (w, some e)
    | none =>
      match env.listenErr with
      | some e => (w, some e)
      | none => ({ w with conn := some { closed := false } }, none)

/-- `conn.WriteMsgUnix(payload, nil, addr)`: on a nil connection the
`net` package returns `syscall.EINVAL`; on a closed connection the send
fails with a `*net.OpError` wrapping the use-of-closed error; otherwise
the outcome is the environment's, with `n` the payload length on
success and `0` on failure. -/
def connSendMsg (c : Option ConnState) (payload : List Nat)
    (result : Option GoErr) : Nat × Option GoErr :=
  match c with
  | none => (0, some (.errno .EINVAL))
  | some cs =>
    if cs.closed then (0, some (.opError .netClosed))
    else
      match result with
      | none => (payload.length, none)
      | some e => (0, some e)

/-- The observable outcome of one `WriteEntry` call: the returned
`(n, err)`, the writer state afterwards, and the fallback path's
footprint — whether the temp-file fallback was attempted, whether the
temp file was created, and whether its descriptor was closed before
returning. -/
structure WriteOutcome where
  n : Nat
  err : Option GoErr
  w : WriterState
  fallbackAttempted : Bool
  tempFileCreated : Bool
  fdClosed : Bool
deriving DecidableEq

/-- `WriteEntry`, statement by statement: run the once-guarded setup and
return its error if it failed in this call; decode the entry; encode the
fields into the pooled buffer; attempt the direct datagram send and
return on success; return the send error unless it is classified as a
size-limit cause; otherwise run the fallback — create a temp file,
unlink it (returning without closing the descriptor if the unlink
fails, since `defer file.Close()` is registered only after), write the
encoded payload, send a zero-length datagram carrying the descriptor as
ancillary rights, and on its success report `len(e.buf)` as `n`. -/
def writeEntry (w0 : WriterState) (e : Entry) (env : Env) : WriteOutcome :=
  let p := runOnce w0 env
  let w := p.1
  match p.2 with
  | some er => ⟨0, some er, w, false, false, false⟩
  | none =>
    match env.decodeResult with
    | .error er => ⟨0, some er, w, false, false, false⟩
    | .ok t =>
      let b := encodeEntry t e.buf
      let s := connSendMsg w.conn b env.sendErr
      match s.2 with
      | none => ⟨s.1, none, w, false, false, false⟩
      | some er =>
        if isSizeLimit er then
          match env.tempFileErr with
          | some e2 => ⟨s.1, some e2, w, true, false, false⟩
          | none =>
            match env.unlinkErr with
            | some e3 => ⟨s.1, some e3, w, true, true, false⟩
            | none =>
              match env.fileWriteErr with
              | some e4 => ⟨env.fileWriteShortN, some e4, w, true, true, true⟩
              | none =>
                match env.ancillaryErr with
                | none => ⟨e.buf.length, none, w, true, true, true⟩
                | some e5 => ⟨b.length, some e5, w, true, true, true⟩
        else ⟨s.1, some er, w, false, false, false⟩

/-- `Close`: a no-op returning nil when `conn` is nil; otherwise
`conn.Close()`, which closes the connection and returns nil the first
time and fails with the use-of-closed error once already closed. -/
def close (w : WriterState) : WriterState × Option GoErr :=
  match w.conn with
  | none => (w, none)
  | some cs =>
    if cs.closed then (w, some (.opError .netClosed))
    else ({ w with conn := some { closed := true } }, none)

/-- Split a byte sequence at the first occurrence of `sep`, dropping the
separator: the pair of the bytes before it and the bytes after it (the
whole sequence and `[]` if `sep` never occurs). -/
def splitOnFirst (sep : Nat) : List Nat → List Nat × List Nat
  | [] => ([], [])
  | x :: xs =>
    if x = sep then ([], xs)
    else
      let p := splitOnFirst sep xs
      (x :: p.1, p.2)

/-- Accumulator-style splitting of a byte stream into newline-terminated
lines; a trailing fragment without a final newline becomes a last line. -/
def splitLinesAux (acc : List Nat) : List Nat → List (List Nat)
  | [] => if acc = [] then [] else [acc.reverse]
  | x :: xs =>
    if x = nlByte then acc.reverse :: splitLinesAux [] xs
    else splitLinesAux (x :: acc) xs

/-- Split a byte stream into its newline-terminated lines. -/
def splitLines (bs : List Nat) : List (List Nat) :=
  splitLinesAux [] bs

/-- The plain-form wire parser of the spec's round-trip property: split
the stream into newline-terminated lines and each line at its first `=`
into a (name, value) pair. -/
def parseWire (bs : List Nat) : List (List Nat × List Nat) :=
  (splitLines bs).map (splitOnFirst eqByte)

/-- The (name, value) pairs `WriteEntry` emits for a record, in emission
order: `PRIORITY`, `MESSAGE`, the caller pairs with uppercased names,
then `JSON` with the raw serialized record. -/
def emittedPairs (t : Dot) (raw : List Nat) : List (List Nat × List Nat) :=
  (str "PRIORITY", priorityOf t.level) :: (str "MESSAGE", t.message) ::
    (t.keyValue.map fun kv => (toUpperStr kv.1, kv.2)) ++ [(str "JSON", raw)]

/-- Encoding a list of (name, value) pairs field by field. -/
def encodeFields (ps : List (List Nat × List Nat)) : List Nat :=
  (ps.map fun p => printField p.1 p.2).flatten

/-- A sane plain-form pair: the name contains no newline and no `=`, the
value contains no newline. -/
def sanePair (p : List Nat × List Nat) : Prop :=
  nlByte ∉ p.1 ∧ eqByte ∉ p.1 ∧ nlByte ∉ p.2

/-! ## Concrete fixtures used by witnesses and counterexamples -/

/-- The record of the spec's worked scenario: level info, message
`hello`, one caller pair `(user, alice)`. -/
def dotC7 : Dot := ⟨.info, str "hello", [(str "user", str "alice")]⟩

/-- The raw serialized record of the worked scenario. -/
def rawC7 : List Nat := str "\x7b\"a\":1\x7d"

/-- An entry holding the worked scenario's raw bytes. -/
def entryC7 : Entry := ⟨rawC7⟩

/-- A writer whose one-time setup already succeeded: `once` done, `addr`
set, connection open. -/
def readyWriter : WriterState := ⟨[], true, some defaultSocket, some ⟨false⟩⟩

/-- A writer before its first `WriteEntry` call. -/
def freshWriter : WriterState := ⟨[], false, none, none⟩

/-- A size-limit send error: `*net.OpError` wrapping `*os.SyscallError`
wrapping `EMSGSIZE`. -/
def sizeErr : GoErr := .opError (.syscallError .EMSGSIZE)

/-- An environment where decoding succeeds, the direct send fails with a
size-limit cause, and every fallback step succeeds. -/
def envOkFallback : Env :=
  ⟨none, none, .ok dotC7, some sizeErr, none, none, none, 0, none⟩

/-- An arbitrary initialization error used by the sticky-error scenario. -/
def initErr : GoErr := .other 7

/-- An environment whose unixgram bind fails with `initErr`; decoding
would succeed. -/
def envInitFail : Env :=
  ⟨none, some initErr, .ok dotC7, none, none, none, none, 0, none⟩

/-- The fallback environment with a failing unlink step. -/
def envUnlinkFail : Env :=
  ⟨none, none, .ok dotC7, some sizeErr, none, some (.other 3), none, 0, none⟩

/-- The record refuting C8 as stated: one caller key containing `=`. -/
def dotBadKey : Dot := ⟨.info, str "x", [(str "a=b", str "c")]⟩

/-- A single-line raw record for the refuting scenario. -/
def rawR : List Nat := str "r"

/-! ## Sanity checks and helper lemmas -/

example : str "A" = [65] := by decide

example : printField (str "MESSAGE") (str "hello") = str "MESSAGE=hello\n" := by decide

example : (writeEntry readyWriter entryC7 envOkFallback).n = 7 := by decide

example : (writeEntry readyWriter entryC7 envOkFallback).err = none := by decide

theorem contains_false_iff (l : List Nat) (a : Nat) :
    l.contains a = false ↔ a ∉ l := by
  simp [List.contains]

theorem encodeFields_cons (p : List Nat × List Nat)
    (ps : List (List Nat × List Nat)) :
    encodeFields (p :: ps) = printField p.1 p.2 ++ encodeFields ps := by
  simp [encodeFields]

theorem foldl_append_eq_flatten (f : List Nat × List Nat → List Nat)
    (l : List (List Nat × List Nat)) (init : List Nat) :
    l.foldl (fun b p => b ++ f p) init = init ++ (l.map f).flatten := by
  induction l generalizing init with
  | nil => simp
  | cons p ps ih =>
    simp only [List.foldl_cons, List.map_cons, List.flatten_cons, ih,
      List.append_assoc]

/-- The sequential buffer appends of `WriteEntry` produce exactly the
concatenation of the emitted fields in emission order. -/
theorem encodeEntry_eq_fields (t : Dot) (raw : List Nat) :
    encodeEntry t raw = encodeFields (emittedPairs t raw) := by
  simp only [encodeEntry, encodeFields, emittedPairs, foldl_append_eq_flatten,
    List.map_cons, List.map_append, List.map_map, List.flatten_cons,
    List.flatten_append, List.append_assoc]
  simp [Function.comp_def]

theorem splitOnFirst_append (sep : Nat) (a b : List Nat) (h : sep ∉ a) :
    splitOnFirst sep (a ++ sep :: b) = (a, b) := by
  induction a with
  | nil => simp [splitOnFirst]
  | cons x xs ih =>
    have hx : x ≠ sep := fun hc => h (hc ▸ List.mem_cons_self x xs)
    have hxs : sep ∉ xs := fun hc => h (List.mem_cons_of_mem _ hc)
    simp [splitOnFirst, hx, ih hxs]

theorem splitLinesAux_append (a rest : List Nat) (acc : List Nat)
    (h : nlByte ∉ a) :
    splitLinesAux acc (a ++ nlByte :: rest) =
      (acc.reverse ++ a) :: splitLinesAux [] rest := by
  induction a generalizing acc with
  | nil => simp [splitLinesAux]
  | cons x xs ih =>
    have hx : x ≠ nlByte := fun hc => h (hc ▸ List.mem_cons_self x xs)
    have hxs : nlByte ∉ xs := fun hc => h (List.mem_cons_of_mem _ hc)
    simp [splitLinesAux, hx, ih _ hxs]

theorem printField_plain (name value : List Nat) (h : nlByte ∉ value) :
    printField name value = (name ++ eqByte :: value) ++ nlByte :: ([] : List Nat) := by
  have hc : value.contains nlByte = false := (contains_false_iff _ _).mpr h
  simp only [printField, hc, Bool.false_eq_true, if_false]
  simp

theorem parse_encodeFields (ps : List (List Nat × List Nat))
    (h : ∀ p ∈ ps, sanePair p) :
    parseWire (encodeFields ps) = ps := by
  induction ps with
  | nil => simp [parseWire, encodeFields, splitLines, splitLinesAux]
  | cons p ps ih =>
    obtain ⟨h1, h2, h3⟩ := h p (List.mem_cons_self p ps)
    have hrest : ∀ q ∈ ps, sanePair q := fun q hq => h q (List.mem_cons_of_mem _ hq)
    have hline : nlByte ∉ p.1 ++ eqByte :: p.2 := by
      intro hc
      rcases List.mem_append.mp hc with hc1 | hc2
      · exact h1 hc1
      · rcases List.mem_cons.mp hc2 with hc3 | hc4
        · simp [nlByte, eqByte] at hc3
        · exact h3 hc4
    have hfield : printField p.1 p.2 ++ encodeFields ps =
        (p.1 ++ eqByte :: p.2) ++ nlByte :: encodeFields ps := by
      rw [printField_plain p.1 p.2 h3]
      simp
    calc parseWire (encodeFields (p :: ps))
        = parseWire ((p.1 ++ eqByte :: p.2) ++ nlByte :: encodeFields ps) := by
          rw [encodeFields_cons, hfield]
      _ = p :: ps := by
          unfold parseWire splitLines
          rw [splitLinesAux_append _ _ _ hline]
          simp only [List.reverse_nil, List.nil_append, List.map_cons]
          rw [splitOnFirst_append _ _ _ h2]
          have : (splitLinesAux [] (encodeFields ps)).map (splitOnFirst eqByte) = ps := ih hrest
          rw [this]

/-! ## Claim theorems -/

theorem leDecode_le64 (n : Nat) (h : n < 2 ^ 64) : leDecode (le64 n) = n := by
  simp only [le64, leDecode, List.foldr]
  omega

/-- C4: a field whose value contains a newline is emitted as the name, a
newline, the 8-byte little-endian length of the value (denoting exactly
the value's byte length), the value, and a trailing newline; a field
whose value has no newline is emitted as `name=value` plus newline. -/
theorem C4_field_encoding (name value : List Nat) (h : value.length < 2 ^ 64) :
    (value.contains nlByte = true →
      printField name value =
        name ++ [nlByte] ++ le64 value.length ++ value ++ [nlByte] ∧
      (le64 value.length).length = 8 ∧
      leDecode (le64 value.length) = value.length) ∧
    (value.contains nlByte = false →
      printField name value = name ++ [eqByte] ++ value ++ [nlByte]) := by
  constructor
  · intro hc
    refine ⟨?_, by simp [le64], leDecode_le64 _ h⟩
    simp only [printField, hc, if_true]
  · intro hc
    simp only [printField, hc, Bool.false_eq_true, if_false]

/-- Witness for C4 at the spec's multi-line scenario value
`line1\nline2` (length 11) and at a single-line value. -/
theorem C4_field_encoding_witness :
    ((str "line1\nline2").contains nlByte = true →
      printField (str "MESSAGE") (str "line1\nline2") =
        str "MESSAGE" ++ [nlByte] ++ le64 (str "line1\nline2").length ++
          str "line1\nline2" ++ [nlByte] ∧
      (le64 (str "line1\nline2").length).length = 8 ∧
      leDecode (le64 (str "line1\nline2").length) = (str "line1\nline2").length) ∧
    ((str "line1\nline2").contains nlByte = false →
      printField (str "MESSAGE") (str "line1\nline2") =
        str "MESSAGE" ++ [eqByte] ++ str "line1\nline2" ++ [nlByte]) :=
  C4_field_encoding (str "MESSAGE") (str "line1\nline2") (by decide)

/-- C5: the encoder always emits `PRIORITY`, then `MESSAGE`, then one
field per caller pair in insertion order with the key uppercased, then
`JSON` last whose value is the raw serialized record verbatim. -/
theorem C5_emission_order (t : Dot) (raw : List Nat) :
    encodeEntry t raw =
      printField (str "PRIORITY") (priorityOf t.level) ++
      (printField (str "MESSAGE") t.message ++
        (((t.keyValue.map fun kv => printField (toUpperStr kv.1) kv.2).flatten) ++
          printField (str "JSON") raw)) := by
  rw [encodeEntry_eq_fields]
  simp [encodeFields, emittedPairs, List.map_map, Function.comp_def]

/-- C6: the severity-to-priority mapping is total and fixed — trace and
debug give `7`, info `6`, warn `4`, error `3`, fatal `2`, panic `0`, any
unrecognized level `5` — and the emitted value is always a single ASCII
digit. -/
theorem C6_priority_mapping :
    priorityOf .trace = str "7" ∧ priorityOf .debug = str "7" ∧
    priorityOf .info = str "6" ∧ priorityOf .warn = str "4" ∧
    priorityOf .error = str "3" ∧ priorityOf .fatal = str "2" ∧
    priorityOf .panicLevel = str "0" ∧
    (∀ n, priorityOf (.unknownLevel n) = str "5") ∧
    (∀ l, ∃ d, priorityOf l = [d] ∧ 48 ≤ d ∧ d ≤ 57) := by
  refine ⟨rfl, rfl, rfl, rfl, rfl, rfl, rfl, fun n => rfl, fun l => ?_⟩
  cases l with
  | trace => exact ⟨55, rfl, by decide, by decide⟩
  | debug => exact ⟨55, rfl, by decide, by decide⟩
  | info => exact ⟨54, rfl, by decide, by decide⟩
  | warn => exact ⟨52, rfl, by decide, by decide⟩
  | error => exact ⟨51, rfl, by decide, by decide⟩
  | fatal => exact ⟨50, rfl, by decide, by decide⟩
  | panicLevel => exact ⟨48, rfl, by decide, by decide⟩
  | unknownLevel n => exact ⟨53, rfl, by decide, by decide⟩

/-- C7: the worked scenario — level info, message `hello`, pair
`(user, alice)`, raw record the spec's JSON object — encodes to exactly
the expected wire bytes. -/
theorem C7_worked_scenario :
    encodeEntry dotC7 rawC7 =
      str "PRIORITY=6\nMESSAGE=hello\nUSER=alice\nJSON=\x7b\"a\":1\x7d\n" := by
  decide

/-- C1 (counterexample): on the successful fallback path of the worked
scenario, `WriteEntry` succeeds but the reported byte count is not the
length of the wire-format bytes written into the temporary file — it is
the raw input's length. -/
theorem C1_counterexample :
    (writeEntry readyWriter entryC7 envOkFallback).err = none ∧
    (writeEntry readyWriter entryC7 envOkFallback).fallbackAttempted = true ∧
    (writeEntry readyWriter entryC7 envOkFallback).n ≠
      (encodeEntry dotC7 rawC7).length := by
  decide

/-- C1 (amended): when the direct send fails with a size-limit cause and
every fallback step succeeds, `WriteEntry` returns nil and reports the
length of the caller's raw serialized record (`len(e.buf)`) as the bytes
accepted — not the length of the encoded wire payload. -/
theorem C1_fallback_reports_input_length (w : WriterState) (e : Entry)
    (env : Env) (t : Dot) (er : GoErr)
    (hOnce : w.onceDone = true) (hConn : w.conn = some ⟨false⟩)
    (hDec : env.decodeResult = .ok t) (hSend : env.sendErr = some er)
    (hSize : isSizeLimit er = true) (hTmp : env.tempFileErr = none)
    (hUnl : env.unlinkErr = none) (hWr : env.fileWriteErr = none)
    (hAnc : env.ancillaryErr = none) :
    (writeEntry w e env).n = e.buf.length ∧
    (writeEntry w e env).err = none := by
  simp [writeEntry, runOnce, connSendMsg, hOnce, hConn, hDec, hSend, hSize,
    hTmp, hUnl, hWr, hAnc]

/-- Witness for C1 (amended) at the worked scenario. -/
theorem C1_fallback_reports_input_length_witness :
    (writeEntry readyWriter entryC7 envOkFallback).n = entryC7.buf.length ∧
    (writeEntry readyWriter entryC7 envOkFallback).err = none :=
  C1_fallback_reports_input_length readyWriter entryC7 envOkFallback dotC7
    sizeErr rfl rfl rfl rfl rfl rfl rfl rfl rfl

/-- C2 (counterexample): when the one-time setup fails, the first call
returns the initialization error but the next call on the same writer
does not return it. -/
theorem C2_counterexample :
    (writeEntry freshWriter entryC7 envInitFail).err = some initErr ∧
    (writeEntry (writeEntry freshWriter entryC7 envInitFail).w entryC7
        envInitFail).err ≠ some initErr := by
  decide

/-- C2 (amended): a failing one-time setup returns its error to the
first caller only, with no bytes accepted and no connection created; the
setup is never retried (the once guard stays done and the connection
stays nil), and a later call whose decode succeeds fails at send time
with `EINVAL` from the nil connection instead of the initialization
error. -/
theorem C2_init_error_first_call_only (w : WriterState) (e e2 : Entry)
    (env env2 : Env) (er : GoErr) (t : Dot)
    (hOnce : w.onceDone = false) (hConn : w.conn = none)
    (hFail : env.resolveErr = some er ∨
      (env.resolveErr = none ∧ env.listenErr = some er))
    (hDec : env2.decodeResult = .ok t) :
    (writeEntry w e env).err = some er ∧
    (writeEntry w e env).n = 0 ∧
    (writeEntry w e env).w.onceDone = true ∧
    (writeEntry w e env).w.conn = none ∧
    (writeEntry (writeEntry w e env).w e2 env2).err = some (.errno .EINVAL) ∧
    (writeEntry (writeEntry w e env).w e2 env2).w.conn = none := by
  rcases hFail with hRes | ⟨hRes, hLis⟩
  · simp [writeEntry, runOnce, connSendMsg, isSizeLimit, hOnce, hConn, hRes, hDec]
  · simp [writeEntry, runOnce, connSendMsg, isSizeLimit, hOnce, hConn, hRes,
      hLis, hDec]

/-- Witness for C2 (amended): the bind-failure environment on a fresh
writer. -/
theorem C2_init_error_first_call_only_witness :
    (writeEntry freshWriter entryC7 envInitFail).err = some initErr ∧
    (writeEntry freshWriter entryC7 envInitFail).n = 0 ∧
    (writeEntry freshWriter entryC7 envInitFail).w.onceDone = true ∧
    (writeEntry freshWriter entryC7 envInitFail).w.conn = none ∧
    (writeEntry (writeEntry freshWriter entryC7 envInitFail).w entryC7
        envInitFail).err = some (.errno .EINVAL) ∧
    (writeEntry (writeEntry freshWriter entryC7 envInitFail).w entryC7
        envInitFail).w.conn = none :=
  C2_init_error_first_call_only freshWriter entryC7 entryC7 envInitFail
    envInitFail initErr dotC7 rfl rfl (Or.inr ⟨rfl, rfl⟩) rfl

/-- C3: on a ready writer with a successfully decoded entry, the
fallback is attempted exactly when the direct send fails with a cause
classified as size-limit (`EMSGSIZE`/`ENOBUFS` inside
`OpError`/`SyscallError`); a successful send attempts no fallback, and a
failure with any other cause returns that error as-is with `n = 0` and
no fallback. -/
theorem C3_fallback_iff_size_limit (w : WriterState) (e : Entry)
    (env : Env) (t : Dot)
    (hOnce : w.onceDone = true) (hConn : w.conn = some ⟨false⟩)
    (hDec : env.decodeResult = .ok t) :
    (env.sendErr = none →
      (writeEntry w e env).fallbackAttempted = false ∧
      (writeEntry w e env).err = none) ∧
    (∀ er, env.sendErr = some er →
      (writeEntry w e env).fallbackAttempted = isSizeLimit er ∧
      (isSizeLimit er = false →
        (writeEntry w e env).err = some er ∧ (writeEntry w e env).n = 0)) := by
  constructor
  · intro hs
    simp [writeEntry, runOnce, connSendMsg, hOnce, hConn, hDec, hs]
  · intro er hs
    by_cases hsz : isSizeLimit er = true
    · refine ⟨?_, fun hc => by simp [hsz] at hc⟩
      cases hTmp : env.tempFileErr with
      | some e2 =>
        simp [writeEntry, runOnce, connSendMsg, hOnce, hConn, hDec, hs, hsz, hTmp]
      | none =>
        cases hUnl : env.unlinkErr with
        | some e3 =>
          simp [writeEntry, runOnce, connSendMsg, hOnce, hConn, hDec, hs, hsz,
            hTmp, hUnl]
        | none =>
          cases hWr : env.fileWriteErr with
          | some e4 =>
            simp [writeEntry, runOnce, connSendMsg, hOnce, hConn, hDec, hs, hsz,
              hTmp, hUnl, hWr]
          | none =>
            cases hAnc : env.ancillaryErr with
            | some e5 =>
              simp [writeEntry, runOnce, connSendMsg, hOnce, hConn, hDec, hs,
                hsz, hTmp, hUnl, hWr, hAnc]
            | none =>
              simp [writeEntry, runOnce, connSendMsg, hOnce, hConn, hDec, hs,
                hsz, hTmp, hUnl, hWr, hAnc]
    · have hsz' : isSizeLimit er = false := by
        cases hh : isSizeLimit er
        · rfl
        · exact absurd hh hsz
      refine ⟨?_, fun _ => ?_⟩ <;>
        simp [writeEntry, runOnce, connSendMsg, hOnce, hConn, hDec, hs, hsz']

/-- Witness for C3 at the worked fallback scenario. -/
theorem C3_fallback_iff_size_limit_witness :
    (envOkFallback.sendErr = none →
      (writeEntry readyWriter entryC7 envOkFallback).fallbackAttempted = false ∧
      (writeEntry readyWriter entryC7 envOkFallback).err = none) ∧
    (∀ er, envOkFallback.sendErr = some er →
      (writeEntry readyWriter entryC7 envOkFallback).fallbackAttempted =
        isSizeLimit er ∧
      (isSizeLimit er = false →
        (writeEntry readyWriter entryC7 envOkFallback).err = some er ∧
        (writeEntry readyWriter entryC7 envOkFallback).n = 0)) :=
  C3_fallback_iff_size_limit readyWriter entryC7 envOkFallback dotC7
    rfl rfl rfl

/-- C9 (counterexample): a second `Close` on the same writer does not
have the same observable result as the first — the first returns nil,
the second returns the use-of-closed error. -/
theorem C9_counterexample :
    (close readyWriter).2 = none ∧
    (close (close readyWriter).1).2 ≠ (close readyWriter).2 := by
  decide

/-- C9 (amended): `Close` on an open writer succeeds and releases the
endpoint; calling it again is safe and leaves the connection closed but
returns the use-of-closed error rather than nil; every send after the
first `Close` fails with the use-of-closed error. -/
theorem C9_close_releases_endpoint (w : WriterState)
    (hOnce : w.onceDone = true) (hConn : w.conn = some ⟨false⟩) :
    (close w).2 = none ∧
    (close w).1.conn = some ⟨true⟩ ∧
    (close (close w).1).2 = some (.opError .netClosed) ∧
    (close (close w).1).1.conn = some ⟨true⟩ ∧
    (∀ (e : Entry) (env : Env) (t : Dot), env.decodeResult = .ok t →
      (writeEntry (close w).1 e env).err = some (.opError .netClosed) ∧
      (writeEntry (close w).1 e env).n = 0) := by
  refine ⟨by simp [close, hConn], by simp [close, hConn], by simp [close, hConn],
    by simp [close, hConn], fun e env t hDec => ?_⟩
  have hc : (close w).1.conn = some ⟨true⟩ := by simp [close, hConn]
  have ho : (close w).1.onceDone = true := by simp [close, hConn, hOnce]
  simp [writeEntry, runOnce, connSendMsg, isSizeLimit, hc, ho, hDec]

/-- Witness for C9 (amended) at the ready writer. -/
theorem C9_close_releases_endpoint_witness :
    (close readyWriter).2 = none ∧
    (close readyWriter).1.conn = some ⟨true⟩ ∧
    (close (close readyWriter).1).2 = some (.opError .netClosed) ∧
    (close (close readyWriter).1).1.conn = some ⟨true⟩ ∧
    (∀ (e : Entry) (env : Env) (t : Dot), env.decodeResult = .ok t →
      (writeEntry (close readyWriter).1 e env).err =
        some (.opError .netClosed) ∧
      (writeEntry (close readyWriter).1 e env).n = 0) :=
  C9_close_releases_endpoint readyWriter rfl rfl

/-- C10: in the fallback, a failed unlink returns its error without the
descriptor having been closed (the deferred close is registered only
after a successful unlink); once the unlink succeeds, the descriptor is
closed before returning on every path. -/
theorem C10_fallback_fd_discipline (w : WriterState) (e : Entry)
    (env : Env) (t : Dot) (er : GoErr)
    (hOnce : w.onceDone = true) (hConn : w.conn = some ⟨false⟩)
    (hDec : env.decodeResult = .ok t) (hSend : env.sendErr = some er)
    (hSize : isSizeLimit er = true) (hTmp : env.tempFileErr = none) :
    (∀ e3, env.unlinkErr = some e3 →
      (writeEntry w e env).err = some e3 ∧
      (writeEntry w e env).tempFileCreated = true ∧
      (writeEntry w e env).fdClosed = false) ∧
    (env.unlinkErr = none → (writeEntry w e env).fdClosed = true) := by
  constructor
  · intro e3 hUnl
    simp [writeEntry, runOnce, connSendMsg, hOnce, hConn, hDec, hSend, hSize,
      hTmp, hUnl]
  · intro hUnl
    cases hWr : env.fileWriteErr with
    | some e4 =>
      simp [writeEntry, runOnce, connSendMsg, hOnce, hConn, hDec, hSend, hSize,
        hTmp, hUnl, hWr]
    | none =>
      cases hAnc : env.ancillaryErr with
      | some e5 =>
        simp [writeEntry, runOnce, connSendMsg, hOnce, hConn, hDec, hSend,
          hSize, hTmp, hUnl, hWr, hAnc]
      | none =>
        simp [writeEntry, runOnce, connSendMsg, hOnce, hConn, hDec, hSend,
          hSize, hTmp, hUnl, hWr, hAnc]

/-- Witness for C10 at the failing-unlink environment. -/
theorem C10_fallback_fd_discipline_witness :
    (∀ e3, envUnlinkFail.unlinkErr = some e3 →
      (writeEntry readyWriter entryC7 envUnlinkFail).err = some e3 ∧
      (writeEntry readyWriter entryC7 envUnlinkFail).tempFileCreated = true ∧
      (writeEntry readyWriter entryC7 envUnlinkFail).fdClosed = false) ∧
    (envUnlinkFail.unlinkErr = none →
      (writeEntry readyWriter entryC7 envUnlinkFail).fdClosed = true) :=
  C10_fallback_fd_discipline readyWriter entryC7 envUnlinkFail dotC7 sizeErr
    rfl rfl rfl rfl rfl rfl

theorem nl_not_mem_priority (l : Level) : nlByte ∉ priorityOf l := by
  cases l with
  | trace => decide
  | debug => decide
  | info => decide
  | warn => decide
  | error => decide
  | fatal => decide
  | panicLevel => decide
  | unknownLevel n => exact (by decide : nlByte ∉ str "5")

theorem toUpperByte_eq_nl {b : Nat} (h : toUpperByte b = nlByte) : b = nlByte := by
  unfold toUpperByte at h
  split at h <;> simp [nlByte] at * <;> omega

theorem toUpperByte_eq_eqByte {b : Nat} (h : toUpperByte b = eqByte) :
    b = eqByte := by
  unfold toUpperByte at h
  split at h <;> simp [eqByte] at * <;> omega

theorem nl_not_mem_toUpper {l : List Nat} (h : nlByte ∉ l) :
    nlByte ∉ toUpperStr l := by
  intro hc
  obtain ⟨b, hb, hbe⟩ := List.mem_map.mp hc
  exact h (toUpperByte_eq_nl hbe ▸ hb)

theorem eqByte_not_mem_toUpper {l : List Nat} (h : eqByte ∉ l) :
    eqByte ∉ toUpperStr l := by
  intro hc
  obtain ⟨b, hb, hbe⟩ := List.mem_map.mp hc
  exact h (toUpperByte_eq_eqByte hbe ▸ hb)

/-- C8 (counterexample): a record all of whose emitted values are
single-line, but with a caller key containing `=`; parsing the emitted
wire bytes by the plain rule does not recover the emitted pairs. -/
theorem C8_counterexample :
    (∀ p ∈ emittedPairs dotBadKey rawR, p.2.contains nlByte = false) ∧
    parseWire (encodeEntry dotBadKey rawR) ≠ emittedPairs dotBadKey rawR := by
  decide

/-- C8 (amended): for every record whose message, caller values and raw
record contain no newline, and whose caller keys additionally contain no
newline and no `=`, parsing the emitted wire bytes by the plain
`name=value` rule recovers exactly the emitted pairs in emission
order. -/
theorem C8_plain_roundtrip (t : Dot) (raw : List Nat)
    (hmsg : nlByte ∉ t.message) (hraw : nlByte ∉ raw)
    (hkv : ∀ kv ∈ t.keyValue, nlByte ∉ kv.1 ∧ eqByte ∉ kv.1 ∧ nlByte ∉ kv.2) :
    parseWire (encodeEntry t raw) = emittedPairs t raw := by
  rw [encodeEntry_eq_fields]
  apply parse_encodeFields
  intro p hp
  simp only [emittedPairs, List.mem_cons, List.mem_append,
    List.mem_singleton, List.mem_map] at hp
  rcases hp with (hp | hp | ⟨kv, hkv1, hkv2⟩) | hp | hp
  · subst hp
    exact ⟨(by decide : nlByte ∉ str "PRIORITY"),
      (by decide : eqByte ∉ str "PRIORITY"), nl_not_mem_priority t.level⟩
  · subst hp
    exact ⟨(by decide : nlByte ∉ str "MESSAGE"),
      (by decide : eqByte ∉ str "MESSAGE"), hmsg⟩
  · obtain ⟨h1, h2, h3⟩ := hkv kv hkv1
    subst hkv2
    exact ⟨nl_not_mem_toUpper h1, eqByte_not_mem_toUpper h2, h3⟩
  · subst hp
    exact ⟨(by decide : nlByte ∉ str "JSON"),
      (by decide : eqByte ∉ str "JSON"), hraw⟩
  · exact absurd hp (List.not_mem_nil p)

/-- Witness for C8 (amended) at the worked single-line scenario. -/
theorem C8_plain_roundtrip_witness :
    parseWire (encodeEntry dotC7 rawC7) = emittedPairs dotC7 rawC7 :=
  C8_plain_roundtrip dotC7 rawC7 (by decide) (by decide) (by decide)

end Logstack
